import Mathlib

/-!
# Verification of the data-forge dataset pipeline (`src/main.py`)

A shallow embedding of the pipeline in `src/main.py` (class `OpenAIGenerator`)
together with proofs settling the specification claims.

Modelling conventions:

* A completion payload that the stage parses with `json.loads` is modelled as
  `Option (List JsonFields)`: `none` is a payload that is not valid JSON
  (`json.decoder.JSONDecodeError`), `some objs` a payload that parsed to a JSON
  array of objects.  Payloads that parse to well-formed JSON which is not an
  array of objects make the source raise an uncaught `TypeError` inside the
  `for data in response_to_json` loop (line 62); every claim speaks only of
  array-of-object or invalid payloads, so those replies are outside the model.
* A dataset file written by `write_csv` is modelled as its character content
  (`List Char`); a file that does not exist and an empty file are both `[]`
  (opening a nonexistent file in append mode creates it empty, and
  `os.stat(...).st_size == 0` holds in both cases).
* The combine / post-pass / deduplication stages operate through pandas at row
  granularity; there the model represents a parsed dataset file by its list of
  data rows (`List Row`, header excluded, as `pd.read_csv` returns it).
-/

set_option autoImplicit false

namespace DataForge

/-! ## JSON values

The values produced by `json.loads` for one parsed reply.  Numbers are
modelled as integers; float payloads are not modelled (floating point is out
of scope).  Objects are association lists in source order; `json.loads`
collapses duplicate keys (last occurrence wins) while an association list keeps
them all and `lookupField` finds the first — the two agree on every object
without duplicate keys, and key *presence*, which is all the claims depend on,
agrees always. -/

mutual

inductive Json where
  | null : Json
  | bool : Bool → Json
  | num : Int → Json
  | str : String → Json
  | arr : JsonArr → Json
  | obj : JsonFields → Json

inductive JsonArr where
  | nil : JsonArr
  | cons : Json → JsonArr → JsonArr

inductive JsonFields where
  | nil : JsonFields
  | cons : String → Json → JsonFields → JsonFields

end

/-- The double-quote character (written by code point to keep character
literals simple). -/
def quoteChar : Char := Char.ofNat 34

/-- The single-quote character. -/
def aposChar : Char := Char.ofNat 39

/-- Decimal digits of a natural number, most significant first; the first
argument is fuel (`n + 1` suffices since `n / 10` strictly decreases). -/
def natCharsAux : Nat → Nat → List Char
  | 0, _ => []
  | fuel + 1, n =>
    if n < 10 then [Nat.digitChar n]
    else natCharsAux fuel (n / 10) ++ [Nat.digitChar (n % 10)]

/-- Decimal representation of a natural number, as Python prints it. -/
def natChars (n : Nat) : List Char := natCharsAux (n + 1) n

/-- Decimal representation of an integer, as Python prints it. -/
def intChars (i : Int) : List Char :=
  if i < 0 then '-' :: natChars i.natAbs else natChars i.natAbs

/-- Escape of the form `\uXXXX` for a (16-bit) code unit, lowercase hex as
Python emits it. -/
def u4 (n : Nat) : List Char :=
  ['\\', 'u', Nat.digitChar (n / 4096 % 16), Nat.digitChar (n / 256 % 16),
   Nat.digitChar (n / 16 % 16), Nat.digitChar (n % 16)]

/-- How `json.dumps` (default `ensure_ascii=True`) escapes one character of a
string. -/
def jsonEscapeChar (c : Char) : List Char :=
  if c = quoteChar then ['\\', quoteChar]
  else if c = '\\' then ['\\', '\\']
  else if c = '\n' then ['\\', 'n']
  else if c = '\r' then ['\\', 'r']
  else if c = '\t' then ['\\', 't']
  else if c = '\x08' then ['\\', 'b']
  else if c = '\x0c' then ['\\', 'f']
  else if c.toNat < 32 then u4 c.toNat
  else if c.toNat < 128 then [c]
  else if c.toNat < 65536 then u4 c.toNat
  else u4 (55296 + (c.toNat - 65536) / 1024) ++ u4 (56320 + (c.toNat - 65536) % 1024)

/-- Serialization of a string by `json.dumps`: double-quoted, characters
escaped. -/
def dumpsStrChars (cs : List Char) : List Char :=
  quoteChar :: (cs.flatMap jsonEscapeChar ++ [quoteChar])

/-! Serialization of a value by `json.dumps`, with CPython's default
separators (`", "` between items, `": "` after keys). -/

mutual

def dumpsL : Json → List Char
  | .null => 'n' :: 'u' :: 'l' :: 'l' :: []
  | .bool true => 't' :: 'r' :: 'u' :: 'e' :: []
  | .bool false => 'f' :: 'a' :: 'l' :: 's' :: 'e' :: []
  | .num i => intChars i
  | .str s => dumpsStrChars s.toList
  | .arr l => '[' :: (dumpsArr l ++ [']'])
  | .obj l => '\x7b' :: (dumpsObj l ++ ['\x7d'])

def dumpsArr : JsonArr → List Char
  | .nil => []
  | .cons j .nil => dumpsL j
  | .cons j rest => dumpsL j ++ ',' :: ' ' :: dumpsArr rest

def dumpsObj : JsonFields → List Char
  | .nil => []
  | .cons k v .nil => dumpsStrChars k.toList ++ ':' :: ' ' :: dumpsL v
  | .cons k v rest =>
    dumpsStrChars k.toList ++ ':' :: ' ' :: dumpsL v ++ ',' :: ' ' :: dumpsObj rest

end

/-- How Python `repr` escapes one character inside a string literal quoted by
`q`.  Printable characters at code point 128 and above are kept verbatim; the
rare non-printable ones among them are approximated by the same rule (their
exact escape never matters to any claim — no theorem below depends on it). -/
def pyEscapeChar (q : Char) (c : Char) : List Char :=
  if c = '\\' then ['\\', '\\']
  else if c = q then ['\\', q]
  else if c = '\n' then ['\\', 'n']
  else if c = '\r' then ['\\', 'r']
  else if c = '\t' then ['\\', 't']
  else if c.toNat < 32 || c.toNat = 127 then
    '\\' :: 'x' :: [Nat.digitChar (c.toNat / 16), Nat.digitChar (c.toNat % 16)]
  else [c]

/-- Python `repr` of a string: single quotes, unless the string contains a
single quote and no double quote. -/
def pyReprStrChars (cs : List Char) : List Char :=
  if cs.contains aposChar && !cs.contains quoteChar then
    quoteChar :: (cs.flatMap (pyEscapeChar quoteChar) ++ [quoteChar])
  else
    aposChar :: (cs.flatMap (pyEscapeChar aposChar) ++ [aposChar])

/-! Python `repr` of a parsed-JSON value (used by `str()` for containers). -/

mutual

def pyReprL : Json → List Char
  | .null => 'N' :: 'o' :: 'n' :: 'e' :: []
  | .bool true => 'T' :: 'r' :: 'u' :: 'e' :: []
  | .bool false => 'F' :: 'a' :: 'l' :: 's' :: 'e' :: []
  | .num i => intChars i
  | .str s => pyReprStrChars s.toList
  | .arr l => '[' :: (pyReprArr l ++ [']'])
  | .obj l => '\x7b' :: (pyReprObj l ++ ['\x7d'])

def pyReprArr : JsonArr → List Char
  | .nil => []
  | .cons j .nil => pyReprL j
  | .cons j rest => pyReprL j ++ ',' :: ' ' :: pyReprArr rest

def pyReprObj : JsonFields → List Char
  | .nil => []
  | .cons k v .nil => pyReprStrChars k.toList ++ ':' :: ' ' :: pyReprL v
  | .cons k v rest =>
    pyReprStrChars k.toList ++ ':' :: ' ' :: pyReprL v ++ ',' :: ' ' :: pyReprObj rest

end

/-- Python `str()` of a parsed-JSON value, i.e. what an f-string interpolation
`f"{data['instruction']}"` produces: a string is taken verbatim, anything else
prints as its `repr`. -/
def pyStrL : Json → List Char
  | .str s => s.toList
  | j => pyReprL j

/-! ## The record store: `OpenAIGenerator.write_csv` (main.py lines 45-77) -/

/-- The header row `instruction;input;output;text` written at main.py line 60
(without the trailing newline). -/
def headerRow : List Char := "instruction;input;output;text".toList

/-- The header together with the newline `f.write` appends (line 60). -/
def headerChunk : List Char := headerRow ++ ['\n']

/-- Dictionary access `data[key]` on a parsed JSON object: the value, or
`none` when the key is absent (Python raises `KeyError`). -/
def lookupField : JsonFields → String → Option Json
  | .nil, _ => none
  | .cons k v rest, key => if k = key then some v else lookupField rest key

/-- A parsed object has all three required keys, i.e. the row write at lines
65-69 raises no `KeyError`. -/
def wellFormed (d : JsonFields) : Bool :=
  (lookupField d "instruction").isSome && (lookupField d "input").isSome &&
    (lookupField d "output").isSome

/-- The row text built at main.py lines 65-69 (without the trailing newline):
`f"{data['instruction']};" + f"{data['input']};" +
f"{json.dumps(data['output'])}"`.  The whole argument of `f.write` is
evaluated before anything is written, so a missing key (`none`) writes
nothing — no partial row. -/
def rowString (d : JsonFields) : Option (List Char) :=
  match lookupField d "instruction", lookupField d "input", lookupField d "output" with
  | some i, some inp, some out =>
    some (pyStrL i ++ ';' :: (pyStrL inp ++ ';' :: dumpsL out))
  | _, _, _ => none

/-- The characters one loop iteration of lines 62-72 appends to the file:
the row and its newline, or nothing when a key is missing (`except KeyError:
pass`). -/
def rowChunk (d : JsonFields) : List Char :=
  match rowString d with
  | some r => r ++ ['\n']
  | none => []

/-- One call of `write_csv` (lines 45-77) on a file with content `file`,
given the `json.loads` outcome of the reply payload.  Returns the new file
content and the console messages printed on parse failure (lines 76-77).
On `JSONDecodeError` the file is never even opened; on success the header is
written first iff the file is empty (line 59), then one row per well-formed
object. -/
def write_csv (parsed : Option (List JsonFields)) (file : List Char) :
    List Char × List String :=
  match parsed with
  | none => (file, ["JSONDecodeError"])
  | some objs =>
    let f1 := if file.isEmpty then file ++ headerChunk else file
    (objs.foldl (fun f d => f ++ rowChunk d) f1, [])

/-- The iteration loop of `generate_dataset` (lines 95-101) as it affects the
target dataset file: each iteration's parsed reply is appended in turn by
`write_csv`; prompting, the completion call and the pacing delay do not touch
the file. -/
def generate_dataset (replies : List (Option (List JsonFields)))
    (file : List Char) : List Char :=
  replies.foldl (fun f r => (write_csv r f).1) file

/-- A parsed object whose written row contains no newline character (the
written row text of a malformed object is taken as empty). -/
def rowNewlineFree (d : JsonFields) : Bool :=
  ((rowString d).getD []).all (fun c => c != '\n')

/-- Number of delimiter-separated fields of a row text: one more than its
count of `';'`. -/
def fieldCount (cs : List Char) : Nat := cs.count ';' + 1

/-- The physical lines of a character stream, splitting at every newline
(the way the file's bytes are read back as lines). -/
def charLines : List Char → List (List Char)
  | [] => [[]]
  | c :: cs =>
    if c = '\n' then [] :: charLines cs
    else
      match charLines cs with
      | [] => [[c]]
      | l :: ls => (c :: l) :: ls

/-- A dataset file in the shape `write_csv` maintains: the header chunk
followed by newline-terminated rows, none of which contains a newline or
coincides with the header row. -/
def goodFile (f : List Char) : Prop :=
  ∃ rows : List (List Char),
    f = headerChunk ++ (rows.map (fun r => r ++ ['\n'])).flatten ∧
      ∀ r ∈ rows, '\n' ∉ r ∧ r ≠ headerRow

/-! ## Rows, the combined corpus, and `combine_datasets` (lines 127-159)

The combine, post-pass and deduplication stages go through pandas, so the
model works at row granularity: a parsed dataset file is its list of data
rows (`pd.read_csv` consumes the header), and `DataFrame.to_csv(...,
header=False, mode='a')` appends exactly those data rows. -/

/-- One data row of a dataset file, as the combine/post-pass stages see it. -/
structure Row where
  instruction : String
  input : String
  output : String
  text : String
deriving DecidableEq, Repr

/-- The combined-corpus file `src/datasets/bigbrain-dataset.csv`:
how many header lines it holds and its data rows. -/
structure Corpus where
  headerCount : Nat
  rows : List Row
deriving DecidableEq, Repr

/-- The fixed path `f'src/datasets/generated/{file}'` read at main.py
line 146 — built from the bare filename alone, whatever directory the
filename was discovered in. -/
def genPath (name : String) : String := "src/datasets/generated/" ++ name

/-! ### The `re.search` patterns

The source filters names with `re.search`; a pattern here is a sequence of
tokens: a literal run, `.` (any character except newline), or `.*` (any such
run).  `reSearch` holds iff some substring matches the whole token sequence —
exactly the success condition of `re.search` for these patterns. -/

/-- One token of the regular-expression patterns used by main.py. -/
inductive Tok where
  | lit : List Char → Tok
  | any : Tok
  | star : Tok

/-- Whether a token sequence matches a character list exactly. -/
def tokensMatch : List Tok → List Char → Bool
  | [], cs => cs.isEmpty
  | .lit l :: ts, cs => (cs.take l.length == l) && tokensMatch ts (cs.drop l.length)
  | .any :: ts, cs =>
    match cs with
    | [] => false
    | c :: rest => (c != '\n') && tokensMatch ts rest
  | .star :: ts, cs =>
    (List.range (cs.length + 1)).any fun i =>
      (cs.take i).all (fun c => c != '\n') && tokensMatch ts (cs.drop i)

/-- Success of `re.search(pattern, s)`: some substring of `s` matches. -/
def reSearch (ts : List Tok) (s : String) : Bool :=
  (List.range (s.toList.length + 1)).any fun i =>
    (List.range (s.toList.length - i + 1)).any fun j =>
      tokensMatch ts ((s.toList.drop i).take j)

/-- The discovery pattern `r'llama-.*-dataset.csv'` of main.py line 144. -/
def llamaPat : List Tok :=
  [.lit "llama-".toList, .star, .lit "-dataset".toList, .any, .lit "csv".toList]

/-- The pattern `r'src/datasets/generated/llama-.*-dataset.csv'` of main.py
line 172. -/
def genFilePat : List Tok :=
  [.lit "src/datasets/generated/llama-".toList, .star, .lit "-dataset".toList,
   .any, .lit "csv".toList]

/-- The pattern `r'src/datasets/manual/manual-questions-.*.csv'` of main.py
lines 173-174. -/
def manualFilePat : List Tok :=
  [.lit "src/datasets/manual/manual-questions-".toList, .star, .any,
   .lit "csv".toList]

/-- The pattern `r'src/datasets/bigbrain-dataset.csv'` of main.py line 192. -/
def bigbrainPat : List Tok :=
  [.lit "src/datasets/bigbrain-dataset".toList, .any, .lit "csv".toList]

/-- The filenames `combine_datasets` discovers (lines 142-144): `os.walk`
yields `(dirpath, dirnames, filenames)` triples over the whole tree rooted at
`"."`; every filename matching the pattern is kept, with multiplicity, paired
with the directory it was found in. -/
def matchedOf (walk : List (String × List String)) : List (String × String) :=
  walk.flatMap fun p => (p.2.filter (fun n => reSearch llamaPat n)).map (fun n => (p.1, n))

/-- The append loop body of lines 146-154, over the discovered `(directory,
filename)` pairs in traversal order.  `fs` gives the data rows of the file at
a path, `none` meaning the path does not exist — there `pd.read_csv` raises
`FileNotFoundError` (modelled as `.error` with the offending path) and the
run aborts. -/
def appendAll (fs : String → Option (List Row)) :
    List (String × String) → List Row → Except String (List Row)
  | [], acc => .ok acc
  | (_, n) :: rest, acc =>
    match fs (genPath n) with
    | none => .error (genPath n)
    | some rs => appendAll fs rest (acc ++ rs)

/-- `combine_datasets` (lines 127-159): the corpus file is opened in mode
`'w'` — any `prior` content is discarded and a single header row written —
then every discovered filename's rows are appended from the fixed generated
path.  The result is the corpus content, or the missing path on failure. -/
def combine_datasets (prior : Corpus) (walk : List (String × List String))
    (fs : String → Option (List Row)) : Except String Corpus :=
  let _ := prior
  (appendAll fs (matchedOf walk) []).map fun rows => ⟨1, rows⟩

/-- `merge_input_output` (lines 103-109), applied per row by
`df.apply(..., axis=1)`: sets the `text` column to `input + '->: ' + output`. -/
def merge_input_output (r : Row) : Row :=
  { r with text := r.input ++ "->: " ++ r.output }

/-- The derived-text post-pass of `pipeline` (lines 185-187): read the corpus
back, apply `merge_input_output` to every row, rewrite the file (`to_csv`
with `index=False` writes the header exactly once). -/
def postPass (c : Corpus) : Corpus :=
  ⟨1, c.rows.map merge_input_output⟩

/-! ## The pipeline dispatch and command line (lines 161-229) -/

/-- The manual-questions merge loop of `pipeline` (lines 170-175): pair the
working directory listing with itself via `zip`, keep the pairs whose first
component matches the generated-dataset *path* pattern and whose second
matches the manual-questions *path* pattern; `add_manual_questions(f2, f1)`
is invoked once per kept pair. -/
def manualMergePairs (listing : List String) : List (String × String) :=
  (listing.zip listing).filter fun p =>
    reSearch genFilePat p.1 && reSearch manualFilePat p.2

/-- The effect of the manual-questions merge loop on any state: fold the
merge action (whatever `add_manual_questions` does to the dataset files) over
the invoked pairs. -/
def runManualMerge {α : Type} (listing : List String)
    (merge : String × String → α → α) (st : α) : α :=
  (manualMergePairs listing).foldl (fun s p => merge p s) st

/-- The deduplication dispatch of `pipeline` (lines 189-194): the working
directory listing filtered by `re.search(r'src/datasets/bigbrain-dataset.csv',
file)`; `DuplicatesVerification(file).verify_duplicates()` runs once per kept
name. -/
def dedupTargets (listing : List String) : List String :=
  listing.filter fun n => reSearch bigbrainPat n

/-- The effect of the deduplication dispatch on any state: fold the resolver
action over the kept names. -/
def runDedup {α : Type} (listing : List String)
    (dedup : String → α → α) (st : α) : α :=
  (dedupTargets listing).foldl (fun s n => dedup n s) st

/-- One pipeline stage. -/
inductive Stage where
  | firstGen : Stage
  | secondGen : Stage
  | combineStage : Stage
  | dedupStage : Stage
deriving DecidableEq, Repr

/-- Which stages `pipeline(execution_list)` executes, in its fixed order
(lines 161-194): each stage runs iff its flag occurs in the list. -/
def stagesOf (args : List String) : List Stage :=
  (if args.contains "--first-generation" then [Stage.firstGen] else []) ++
  (if args.contains "--second-generation" then [Stage.secondGen] else []) ++
  (if args.contains "--combine" then [Stage.combineStage] else []) ++
  (if args.contains "--no-duplicates" then [Stage.dedupStage] else [])

/-- The recognised flags (`list_args`, lines 202-208). -/
def listArgs : List String :=
  ["--first-generation", "--second-generation", "--combine",
   "--no-duplicates", "--subject"]

/-- Outcome of the `__main__` block for a given argument list. -/
structure MainOutcome where
  usagePrinted : Bool
  subjectPrompt : Bool
  invalidSubjectPrompt : Bool
  ranStages : List Stage
  crash : Bool
deriving DecidableEq, Repr

/-- The `__main__` dispatch (lines 197-229).  `usagePrinted` mirrors the
validation test of line 210 (`args == "--help"` compares a list with a
string and is always false in Python, so it is dropped); note the block then
falls through regardless.  When no generation flag is present, `pipeline`
runs on the arguments as given.  Otherwise `--subject` is required; if it is
the last argument, `args[args.index("--subject") + 1]` raises an uncaught
`IndexError` (`crash`). -/
def mainDispatch (args subjects : List String) : MainOutcome :=
  let usage := args.isEmpty || !(args.all fun a => (listArgs ++ subjects).contains a)
  if !args.contains "--first-generation" && !args.contains "--second-generation" then
    ⟨usage, false, false, stagesOf args, false⟩
  else if !args.contains "--subject" then
    ⟨usage, true, false, [], false⟩
  else if args.indexOf "--subject" + 1 ≥ args.length then
    ⟨usage, false, false, [], true⟩
  else if !subjects.contains (args.getD (args.indexOf "--subject" + 1) "") then
    ⟨usage, false, true, [], false⟩
  else
    ⟨usage, false, false, stagesOf args, false⟩

/-! ## Helper lemmas -/

lemma digitChar_isDigit {n : Nat} (h : n < 10) : (Nat.digitChar n).isDigit = true := by
  interval_cases n <;> decide

lemma natCharsAux_digit :
    ∀ (fuel n : Nat) (c : Char), c ∈ natCharsAux fuel n → c.isDigit = true := by
  intro fuel
  induction fuel with
  | zero => intro n c h; simp [natCharsAux] at h
  | succ f ih =>
    intro n c h
    rw [natCharsAux] at h
    by_cases hn : n < 10
    · rw [if_pos hn] at h
      rw [List.mem_singleton] at h
      exact h ▸ digitChar_isDigit hn
    · rw [if_neg hn] at h
      rcases List.mem_append.mp h with h | h
      · exact ih _ _ h
      · rw [List.mem_singleton] at h
        exact h ▸ digitChar_isDigit (Nat.mod_lt _ (by omega))

lemma intChars_mem {i : Int} {c : Char} (h : c ∈ intChars i) :
    c = '-' ∨ c.isDigit = true := by
  rw [intChars] at h
  split at h
  · rcases List.mem_cons.mp h with h | h
    · exact Or.inl h
    · exact Or.inr (natCharsAux_digit _ _ _ h)
  · exact Or.inr (natCharsAux_digit _ _ _ h)

lemma ne_of_head_ne {x y : List Char} (h : x.head? ≠ y.head?) : x ≠ y :=
  fun e => h (congrArg List.head? e)

/-- The serialization of `data['output']` can never be one of the proper
suffixes of the header that start right after a `';'`: its first character is
a quote, bracket, brace, digit, sign, or it is one of the four literals
`null`, `true`, `false` — never `input…`, `output…` or `text`. -/
lemma dumpsL_ne_header_suffix (j : Json) :
    dumpsL j ≠ "input;output;text".toList ∧
      dumpsL j ≠ "output;text".toList ∧ dumpsL j ≠ "text".toList := by
  have hnum : ∀ (i : Int), intChars i ≠ "input;output;text".toList ∧
      intChars i ≠ "output;text".toList ∧ intChars i ≠ "text".toList := by
    intro i
    refine ⟨fun h => ?_, fun h => ?_, fun h => ?_⟩
    · have hm : 'i' ∈ intChars i := by rw [h]; decide
      rcases intChars_mem hm with h1 | h1 <;> simp at h1
    · have hm : 'o' ∈ intChars i := by rw [h]; decide
      rcases intChars_mem hm with h1 | h1 <;> simp at h1
    · have hm : 't' ∈ intChars i := by rw [h]; decide
      rcases intChars_mem hm with h1 | h1 <;> simp at h1
  cases j with
  | null => refine ⟨by decide, by decide, by decide⟩
  | bool b => cases b <;> exact ⟨by decide, by decide, by decide⟩
  | num i => exact hnum i
  | str s =>
    refine ⟨ne_of_head_ne ?_, ne_of_head_ne ?_, ne_of_head_ne ?_⟩ <;>
      · rw [show dumpsL (Json.str s) = dumpsStrChars s.toList from by
          simp [dumpsL]]
        rw [dumpsStrChars, List.head?_cons]
        decide
  | arr l =>
    refine ⟨ne_of_head_ne ?_, ne_of_head_ne ?_, ne_of_head_ne ?_⟩ <;>
      · rw [show dumpsL (Json.arr l) = '[' :: (dumpsArr l ++ [']']) from by
          simp [dumpsL]]
        rw [List.head?_cons]
        decide
  | obj l =>
    refine ⟨ne_of_head_ne ?_, ne_of_head_ne ?_, ne_of_head_ne ?_⟩ <;>
      · rw [show dumpsL (Json.obj l) = '\x7b' :: (dumpsObj l ++ ['\x7d']) from by
          simp [dumpsL]]
        rw [List.head?_cons]
        decide

/-- A decomposition of the header row at a `';'` boundary leaves one of
exactly three suffixes. -/
lemma header_suffix_enum (p D : List Char) (h : p ++ D = headerRow)
    (hl : p.getLast? = some ';') :
    D = "input;output;text".toList ∨ D = "output;text".toList ∨
      D = "text".toList := by
  have hlen : p.length + D.length = headerRow.length := by
    simpa using congrArg List.length h
  have hp : headerRow.take p.length = p := by rw [← h, List.take_left]
  have hD : headerRow.drop p.length = D := by rw [← h, List.drop_left]
  have hb : p.length < 30 := by
    have h29 : headerRow.length = 29 := by decide
    omega
  have key : ∀ k, k < 30 → (headerRow.take k).getLast? = some ';' →
      (headerRow.drop k = "input;output;text".toList ∨
        headerRow.drop k = "output;text".toList ∨
        headerRow.drop k = "text".toList) := by decide
  rw [← hD]
  exact key p.length hb (by rw [hp]; exact hl)

/-- No data row `write_csv` produces can coincide with the header row. -/
lemma row_ne_header (i inp out : Json) :
    pyStrL i ++ ';' :: (pyStrL inp ++ ';' :: dumpsL out) ≠ headerRow := by
  intro h
  have hsplit : (pyStrL i ++ ';' :: pyStrL inp ++ [';']) ++ dumpsL out = headerRow := by
    rw [← h]; simp
  have hlast : (pyStrL i ++ ';' :: pyStrL inp ++ [';']).getLast? = some ';' := by
    rw [show pyStrL i ++ ';' :: pyStrL inp ++ [';'] =
        (pyStrL i ++ ';' :: pyStrL inp) ++ [';'] from by simp]
    exact List.getLast?_concat _
  rcases header_suffix_enum _ _ hsplit hlast with hD | hD | hD <;>
    · have := dumpsL_ne_header_suffix out
      tauto

lemma charLines_ne_nil (cs : List Char) : charLines cs ≠ [] := by
  induction cs with
  | nil => simp [charLines]
  | cons c cs ih =>
    rw [charLines]
    split
    · simp
    · rcases hl : charLines cs with _ | ⟨l, ls⟩
      · simp
      · simp

lemma charLines_append_nl (a b : List Char) (ha : '\n' ∉ a) :
    charLines (a ++ '\n' :: b) = a :: charLines b := by
  induction a with
  | nil => simp [charLines]
  | cons c a ih =>
    have hc : c ≠ '\n' := fun e => ha (e ▸ List.mem_cons_self c a)
    have ha' : '\n' ∉ a := fun e => ha (List.mem_cons_of_mem _ e)
    rw [List.cons_append, charLines, if_neg hc, ih ha']

lemma charLines_chunks (rows : List (List Char)) (h : ∀ r ∈ rows, '\n' ∉ r) :
    charLines ((rows.map (fun r => r ++ ['\n'])).flatten) = rows ++ [[]] := by
  induction rows with
  | nil => simp [charLines]
  | cons r rows ih =>
    rw [List.map_cons, List.flatten_cons, List.append_assoc, List.singleton_append,
      charLines_append_nl _ _ (h r (List.mem_cons_self r rows))]
    rw [ih fun x hx => h x (List.mem_cons_of_mem _ hx)]
    simp

lemma write_csv_none (file : List Char) : (write_csv none file).1 = file := rfl

lemma foldl_rowChunk (l : List JsonFields) (f : List Char) :
    l.foldl (fun f d => f ++ rowChunk d) f = f ++ (l.map rowChunk).flatten := by
  induction l generalizing f with
  | nil => simp
  | cons d l ih => rw [List.foldl_cons, ih]; simp

lemma wellFormed_iff_rowString (d : JsonFields) :
    wellFormed d = true ↔ (rowString d).isSome = true := by
  rw [wellFormed, rowString]
  rcases h1 : lookupField d "instruction" with _ | i <;>
    rcases h2 : lookupField d "input" with _ | inp <;>
    rcases h3 : lookupField d "output" with _ | out <;> simp

lemma rowChunk_of_wellFormed {d : JsonFields} (h : wellFormed d = true) :
    rowChunk d = (rowString d).getD [] ++ ['\n'] := by
  rw [rowChunk]
  rcases hr : rowString d with _ | r
  · exact absurd ((wellFormed_iff_rowString d).mp h) (by rw [hr]; simp)
  · simp

lemma rowChunk_of_malformed {d : JsonFields} (h : wellFormed d = false) :
    rowChunk d = [] := by
  rw [rowChunk]
  rcases hr : rowString d with _ | r
  · rfl
  · have := (wellFormed_iff_rowString d).mpr (by rw [hr]; rfl)
    rw [this] at h
    cases h

lemma map_rowChunk_flatten (l : List JsonFields) :
    (l.map rowChunk).flatten =
      ((l.filter wellFormed).map (fun d => (rowString d).getD [] ++ ['\n'])).flatten := by
  induction l with
  | nil => rfl
  | cons d l ih =>
    rcases hw : wellFormed d with _ | _
    · rw [List.map_cons, List.flatten_cons, rowChunk_of_malformed hw,
        List.filter_cons_of_neg (by simp [hw]), ih, List.nil_append]
    · rw [List.map_cons, List.flatten_cons, rowChunk_of_wellFormed hw,
        List.filter_cons_of_pos hw, List.map_cons, List.flatten_cons, ih]

/-- The file content one successful `write_csv` call produces. -/
lemma write_csv_some (l : List JsonFields) (file : List Char) :
    (write_csv (some l) file).1 =
      file ++ (if file.isEmpty then headerChunk else []) ++
        ((l.filter wellFormed).map (fun d => (rowString d).getD [] ++ ['\n'])).flatten := by
  rw [write_csv]
  simp only []
  rw [foldl_rowChunk, map_rowChunk_flatten]
  rcases hf : file.isEmpty with _ | _
  · simp [hf]
  · simp [hf]

lemma rowString_no_nl {d : JsonFields} (h : rowNewlineFree d = true)
    {r : List Char} (hr : rowString d = some r) : '\n' ∉ r := by
  rw [rowNewlineFree, hr] at h
  intro hmem
  have := List.all_eq_true.mp h '\n' hmem
  simp at this

lemma rowString_ne_header {d : JsonFields} {r : List Char}
    (hr : rowString d = some r) : r ≠ headerRow := by
  rw [rowString] at hr
  rcases h1 : lookupField d "instruction" with _ | i <;> rw [h1] at hr
  · cases hr
  rcases h2 : lookupField d "input" with _ | inp <;> rw [h2] at hr
  · cases hr
  rcases h3 : lookupField d "output" with _ | out <;> rw [h3] at hr
  · cases hr
  have := row_ne_header i inp out
  simp only [Option.some.injEq] at hr
  rw [← hr]
  exact this

lemma write_some_good (l : List JsonFields) (f : List Char)
    (hn : ∀ d ∈ l, rowNewlineFree d = true)
    (hf : f = [] ∨ goodFile f) : goodFile (write_csv (some l) f).1 := by
  have hrows : ∀ r ∈ (l.filter wellFormed).map (fun d => (rowString d).getD []),
      '\n' ∉ r ∧ r ≠ headerRow := by
    intro r hr
    rcases List.mem_map.mp hr with ⟨d, hd, rfl⟩
    have hdl : d ∈ l := List.mem_of_mem_filter hd
    have hwf : wellFormed d = true := List.of_mem_filter hd
    obtain ⟨r', hr'⟩ := Option.isSome_iff_exists.mp ((wellFormed_iff_rowString d).mp hwf)
    rw [hr']
    exact ⟨rowString_no_nl (hn d hdl) hr', rowString_ne_header hr'⟩
  have hmapmap : ((l.filter wellFormed).map (fun d => (rowString d).getD [])).map
      (fun r => r ++ ['\n']) =
      (l.filter wellFormed).map (fun d => (rowString d).getD [] ++ ['\n']) := by
    rw [List.map_map]; rfl
  rw [write_csv_some]
  rcases hf with rfl | ⟨rows, hrows0, hcond⟩
  · refine ⟨(l.filter wellFormed).map (fun d => (rowString d).getD []), ?_, hrows⟩
    rw [hmapmap]
    simp
  · have hne : f.isEmpty = false := by
      rw [hrows0, headerChunk]
      simp
    refine ⟨rows ++ (l.filter wellFormed).map (fun d => (rowString d).getD []), ?_, ?_⟩
    · rw [hne, if_neg (by simp), List.append_nil, hrows0, List.map_append,
        List.flatten_append, List.append_assoc, hmapmap]
    · intro r hr
      rcases List.mem_append.mp hr with hr | hr
      · exact hcond r hr
      · exact hrows r hr

lemma generate_dataset_good (bs : List (Option (List JsonFields))) (f : List Char)
    (hn : ∀ l, some l ∈ bs → ∀ d ∈ l, rowNewlineFree d = true)
    (hf : f = [] ∨ goodFile f) :
    (generate_dataset bs f = [] ∨ goodFile (generate_dataset bs f)) ∧
      ((bs.any Option.isSome = true ∨ goodFile f) →
        goodFile (generate_dataset bs f)) := by
  induction bs generalizing f with
  | nil =>
    refine ⟨hf, fun h => ?_⟩
    rcases h with h | h
    · simp at h
    · exact h
  | cons b bs ih =>
    have hstep : generate_dataset (b :: bs) f = generate_dataset bs ((write_csv b f).1) := by
      rw [generate_dataset, generate_dataset, List.foldl_cons]
    rcases b with _ | l
    · rw [hstep, write_csv_none]
      have := ih f (fun l hl => hn l (List.mem_cons_of_mem _ hl)) hf
      refine ⟨this.1, fun h => this.2 ?_⟩
      rcases h with h | h
      · rw [List.any_cons] at h
        simp only [Option.isSome_none, Bool.false_or] at h
        exact Or.inl h
      · exact Or.inr h
    · have hgood : goodFile (write_csv (some l) f).1 :=
        write_some_good l f (hn l (List.mem_cons_self _ _)) hf
      rw [hstep]
      have := ih _ (fun l' hl' => hn l' (List.mem_cons_of_mem _ hl')) (Or.inr hgood)
      exact ⟨this.1, fun _ => this.2 (Or.inr hgood)⟩

lemma goodFile_header_once {f : List Char} (h : goodFile f) :
    (charLines f).count headerRow = 1 ∧ (charLines f).head? = some headerRow := by
  obtain ⟨rows, rfl, hcond⟩ := h
  have hh : ('\n' : Char) ∉ headerRow := by decide
  rw [headerChunk, List.append_assoc, List.singleton_append,
    charLines_append_nl _ _ hh, charLines_chunks rows (fun r hr => (hcond r hr).1)]
  have h1 : rows.count headerRow = 0 :=
    List.count_eq_zero.mpr (fun hmem => (hcond _ hmem).2 rfl)
  have h2 : ([[]] : List (List Char)).count headerRow = 0 := by decide
  refine ⟨?_, rfl⟩
  simp [List.count_cons, List.count_append, h1, h2]

/-- A successful `re.search` of a pattern that opens with a literal run
forces every character of that literal to occur in the searched string. -/
lemma reSearch_lit_mem {l : List Char} {ts : List Tok} {s : String} {c : Char}
    (h : reSearch (.lit l :: ts) s = true) (hc : c ∈ l) : c ∈ s.toList := by
  rw [reSearch] at h
  obtain ⟨i, _, h⟩ := List.any_eq_true.mp h
  obtain ⟨j, _, h⟩ := List.any_eq_true.mp h
  rw [tokensMatch, Bool.and_eq_true] at h
  obtain ⟨h1, _⟩ := h
  have heq : ((s.toList.drop i).take j).take l.length = l := eq_of_beq h1
  have hc1 : c ∈ ((s.toList.drop i).take j).take l.length := by rw [heq]; exact hc
  exact List.drop_subset _ _ (List.take_subset _ _ (List.take_subset _ _ hc1))

lemma genFilePat_slash {s : String} (h : reSearch genFilePat s = true) :
    '/' ∈ s.toList := by
  rw [genFilePat] at h
  exact reSearch_lit_mem h (by decide)

lemma bigbrainPat_slash {s : String} (h : reSearch bigbrainPat s = true) :
    '/' ∈ s.toList := by
  rw [bigbrainPat] at h
  exact reSearch_lit_mem h (by decide)

lemma manualMergePairs_nil {listing : List String}
    (h : ∀ n ∈ listing, '/' ∉ n.toList) : manualMergePairs listing = [] := by
  rw [manualMergePairs]
  apply List.filter_eq_nil_iff.mpr
  rintro ⟨a, b⟩ hp hcontra
  rw [Bool.and_eq_true] at hcontra
  exact h a (List.of_mem_zip hp).1 (genFilePat_slash hcontra.1)

lemma dedupTargets_nil {listing : List String}
    (h : ∀ n ∈ listing, '/' ∉ n.toList) : dedupTargets listing = [] := by
  rw [dedupTargets]
  apply List.filter_eq_nil_iff.mpr
  intro n hn hcontra
  exact h n hn (bigbrainPat_slash hcontra)

lemma appendAll_ok (fs : String → Option (List Row)) :
    ∀ (m : List (String × String)) (acc : List Row),
      (∀ p ∈ m, (fs (genPath p.2)).isSome = true) →
      appendAll fs m acc =
        .ok (acc ++ (m.map (fun p => (fs (genPath p.2)).getD [])).flatten) := by
  intro m
  induction m with
  | nil => intro acc _; simp [appendAll]
  | cons p m ih =>
    intro acc h
    rcases p with ⟨d, n⟩
    rcases hfs : fs (genPath n) with _ | rs
    · have := h (d, n) (List.mem_cons_self _ _)
      rw [hfs] at this
      simp at this
    · rw [appendAll, hfs]
      dsimp only
      rw [ih _ (fun q hq => h q (List.mem_cons_of_mem _ hq))]
      simp [hfs]

lemma appendAll_names (fs : String → Option (List Row)) :
    ∀ (m m' : List (String × String)), m.map Prod.snd = m'.map Prod.snd →
      ∀ acc, appendAll fs m acc = appendAll fs m' acc := by
  intro m
  induction m with
  | nil =>
    intro m' h acc
    rw [show m' = [] from by
      rcases m' with _ | ⟨q, m'⟩
      · rfl
      · simp at h]
  | cons p m ih =>
    intro m' h acc
    rcases m' with _ | ⟨q, m'⟩
    · simp at h
    · simp only [List.map_cons, List.cons.injEq] at h
      rw [appendAll, appendAll, h.1]
      rcases fs (genPath q.2) with _ | rs
      · rfl
      · exact ih m' h.2 _

lemma appendAll_error (fs : String → Option (List Row)) :
    ∀ (m : List (String × String)) (acc : List Row),
      (∃ p ∈ m, fs (genPath p.2) = none) →
      ∃ e, appendAll fs m acc = .error e := by
  intro m
  induction m with
  | nil => rintro acc ⟨p, hp, _⟩; simp at hp
  | cons p m ih =>
    intro acc h
    rcases p with ⟨d, n⟩
    rcases hfs : fs (genPath n) with _ | rs
    · exact ⟨genPath n, by rw [appendAll, hfs]⟩
    · obtain ⟨q, hq, hq2⟩ := h
      rcases List.mem_cons.mp hq with rfl | hq
      · rw [hfs] at hq2; cases hq2
      · rw [appendAll, hfs]
        exact ih _ ⟨q, hq, hq2⟩

lemma matchedOf_single {dirs : List String} {name : String}
    (h : reSearch llamaPat name = true) :
    matchedOf (dirs.map (fun d => (d, [name]))) = dirs.map (fun d => (d, name)) := by
  induction dirs with
  | nil => rfl
  | cons d dirs ih =>
    simp only [matchedOf, List.map_cons, List.flatMap_cons] at ih ⊢
    rw [List.filter_cons_of_pos h]
    simp only [List.filter_nil, List.map_cons, List.map_nil]
    rw [ih]
    rfl

lemma appendAll_const {fs : String → Option (List Row)} {name : String}
    {rows : List Row} (hfs : fs (genPath name) = some rows) :
    ∀ (dirs : List String) (acc : List Row),
      appendAll fs (dirs.map (fun d => (d, name))) acc =
        .ok (acc ++ (List.replicate dirs.length rows).flatten) := by
  intro dirs
  induction dirs with
  | nil => intro acc; simp [appendAll]
  | cons d dirs ih =>
    intro acc
    rw [List.map_cons, appendAll, hfs]
    dsimp only
    rw [ih]
    rw [List.length_cons, List.replicate_succ]
    simp

/-! ## Claims -/

/-- Claim C1, counterexample: the claim says every written row consists of the
four fields `instruction`, `input`, `output`, `text` joined by `';'` with the
delimiter neutralized, hence has as many delimiter-separated fields as the
header.  For the delimiter-free record `("a", "b", "c")` the row `write_csv`
appends is `a;b;"c"` — three fields against the header's four, and no `text`
field at all. -/
theorem c1_counterexample :
    rowString (JsonFields.cons "instruction" (Json.str "a")
        (JsonFields.cons "input" (Json.str "b")
          (JsonFields.cons "output" (Json.str "c") JsonFields.nil))) =
      some ('a' :: ';' :: 'b' :: ';' :: quoteChar :: 'c' :: quoteChar :: []) ∧
    fieldCount ('a' :: ';' :: 'b' :: ';' :: quoteChar :: 'c' :: quoteChar :: []) = 3 ∧
    fieldCount headerRow = 4 ∧ ¬ (3 = 4) := by
  refine ⟨?_, by decide, by decide, by decide⟩
  decide

/-- Claim C1 (amended): each row `write_csv` appends consists of the three
fields `instruction`, `input` and the `json.dumps` serialization of `output`,
joined by `';'`; no `text` field is written, and delimiter characters in
field texts are not stripped or substituted, so the row's field count is `3`
plus the number of `';'` occurring in the three field texts (while the header
has 4 fields). -/
theorem c1_amended_row_shape (d : JsonFields) (i inp out : Json)
    (h1 : lookupField d "instruction" = some i)
    (h2 : lookupField d "input" = some inp)
    (h3 : lookupField d "output" = some out) :
    rowString d = some (pyStrL i ++ ';' :: (pyStrL inp ++ ';' :: dumpsL out)) ∧
    fieldCount ((rowString d).getD []) =
      3 + (pyStrL i).count ';' + (pyStrL inp).count ';' + (dumpsL out).count ';' := by
  have hr : rowString d =
      some (pyStrL i ++ ';' :: (pyStrL inp ++ ';' :: dumpsL out)) := by
    rw [rowString, h1, h2, h3]
  refine ⟨hr, ?_⟩
  rw [hr]
  simp only [Option.getD_some, fieldCount, List.count_append, List.count_cons]
  simp
  omega

/-- Witness for `c1_amended_row_shape` at the record `("a", "b", "c")`. -/
theorem c1_amended_witness :
    rowString (JsonFields.cons "instruction" (Json.str "a")
        (JsonFields.cons "input" (Json.str "b")
          (JsonFields.cons "output" (Json.str "c") JsonFields.nil))) =
      some (pyStrL (Json.str "a") ++ ';' ::
        (pyStrL (Json.str "b") ++ ';' :: dumpsL (Json.str "c"))) ∧
    fieldCount ((rowString (JsonFields.cons "instruction" (Json.str "a")
        (JsonFields.cons "input" (Json.str "b")
          (JsonFields.cons "output" (Json.str "c") JsonFields.nil)))).getD []) =
      3 + (pyStrL (Json.str "a")).count ';' + (pyStrL (Json.str "b")).count ';' +
        (dumpsL (Json.str "c")).count ';' :=
  c1_amended_row_shape _ (Json.str "a") (Json.str "b") (Json.str "c")
    rfl rfl rfl

/-- Claim C2: when every discovered filename is readable at its generated
path, a combine run produces (whatever the corpus held before) exactly one
header plus the concatenation, in discovery order, of every discovered
file's data rows — `sum(ri)` data rows in total. -/
theorem c2_combine_completeness (prior : Corpus) (walk : List (String × List String))
    (fs : String → Option (List Row))
    (h : ∀ p ∈ matchedOf walk, (fs (genPath p.2)).isSome = true) :
    combine_datasets prior walk fs =
      .ok ⟨1, ((matchedOf walk).map (fun p => (fs (genPath p.2)).getD [])).flatten⟩ ∧
    (((matchedOf walk).map (fun p => (fs (genPath p.2)).getD [])).flatten).length =
      ((matchedOf walk).map (fun p => ((fs (genPath p.2)).getD []).length)).sum := by
  refine ⟨?_, ?_⟩
  · rw [combine_datasets, appendAll_ok fs _ _ h]
    rfl
  · rw [List.length_flatten, List.map_map]
    rfl

/-- Witness for `c2_combine_completeness`: one discovered file with one row. -/
theorem c2_witness :
    combine_datasets ⟨0, []⟩ [("dir", ["llama-a-dataset.csv"])]
        (fun p => if p = "src/datasets/generated/llama-a-dataset.csv" then
          some [⟨"i", "q", "a", ""⟩] else none) =
      .ok ⟨1, ((matchedOf [("dir", ["llama-a-dataset.csv"])]).map
        (fun p => ((fun p => if p = "src/datasets/generated/llama-a-dataset.csv" then
          some [(⟨"i", "q", "a", ""⟩ : Row)] else none) (genPath p.2)).getD [])).flatten⟩ ∧
    (((matchedOf [("dir", ["llama-a-dataset.csv"])]).map
        (fun p => ((fun p => if p = "src/datasets/generated/llama-a-dataset.csv" then
          some [(⟨"i", "q", "a", ""⟩ : Row)] else none) (genPath p.2)).getD [])).flatten).length =
      ((matchedOf [("dir", ["llama-a-dataset.csv"])]).map
        (fun p => (((fun p => if p = "src/datasets/generated/llama-a-dataset.csv" then
          some [(⟨"i", "q", "a", ""⟩ : Row)] else none) (genPath p.2)).getD []).length)).sum :=
  c2_combine_completeness ⟨0, []⟩ _ _ (by decide)

/-- Claim C3: after the combine stage's derived-text post-pass, every row of
the combined corpus has `text = input ++ "->: " ++ output`. -/
theorem c3_derived_text (c : Corpus) (r : Row) (h : r ∈ (postPass c).rows) :
    r.text = r.input ++ "->: " ++ r.output := by
  rw [postPass] at h
  obtain ⟨r0, _, rfl⟩ := List.mem_map.mp h
  rfl

/-- Witness for `c3_derived_text` on a one-row corpus. -/
theorem c3_witness :
    (⟨"i", "q", "a", "q->: a"⟩ : Row) ∈ (postPass ⟨1, [⟨"i", "q", "a", ""⟩]⟩).rows ∧
    (⟨"i", "q", "a", "q->: a"⟩ : Row).text =
      (⟨"i", "q", "a", "q->: a"⟩ : Row).input ++ "->: " ++
        (⟨"i", "q", "a", "q->: a"⟩ : Row).output :=
  ⟨by decide, c3_derived_text ⟨1, [⟨"i", "q", "a", ""⟩]⟩ _ (by decide)⟩

/-- Claim C4, counterexample: the claim concludes that the header appears
exactly once in the file.  Field values are written without neutralizing
newlines, so a record whose `instruction` value embeds
`"\ninstruction;input;output;text\n"` reproduces the header as a second
physical line: after a single append to an empty file the header line occurs
twice. -/
theorem c4_counterexample :
    (charLines ((write_csv (some [JsonFields.cons "instruction"
        (Json.str "x\ninstruction;input;output;text\ny")
      (JsonFields.cons "input" (Json.str "y")
        (JsonFields.cons "output" (Json.str "z") JsonFields.nil))]) []).1)).count
      headerRow = 2 ∧ ¬ (2 = 1) := by
  refine ⟨?_, by decide⟩
  decide

/-- Claim C4 (amended): starting from a nonexistent or empty file, across any
sequence of `write_csv` calls the header is written only when the file is
empty; after at least one successfully parsed reply the header row is the
file's first line, and — provided no record's written row text contains a
newline character — it occurs exactly once among the file's lines. -/
theorem c4_amended_header_once (bs : List (Option (List JsonFields)))
    (h1 : bs.any Option.isSome = true)
    (h2 : ∀ l, some l ∈ bs → ∀ d ∈ l, rowNewlineFree d = true) :
    (charLines (generate_dataset bs [])).count headerRow = 1 ∧
      (charLines (generate_dataset bs [])).head? = some headerRow :=
  goodFile_header_once ((generate_dataset_good bs [] h2 (Or.inl rfl)).2 (Or.inl h1))

/-- Witness for `c4_amended_header_once`: two calls — a malformed reply, then
a batch with one well-formed and one malformed object. -/
theorem c4_amended_witness :
    (charLines (generate_dataset [none, some [JsonFields.cons "instruction"
        (Json.str "a") (JsonFields.cons "input" (Json.str "b")
          (JsonFields.cons "output" (Json.str "c") JsonFields.nil)),
      JsonFields.cons "instruction" (Json.str "only") JsonFields.nil]] [])).count
        headerRow = 1 ∧
    (charLines (generate_dataset [none, some [JsonFields.cons "instruction"
        (Json.str "a") (JsonFields.cons "input" (Json.str "b")
          (JsonFields.cons "output" (Json.str "c") JsonFields.nil)),
      JsonFields.cons "instruction" (Json.str "only") JsonFields.nil]] [])).head? =
      some headerRow :=
  c4_amended_header_once _ (by decide)
    (by
      intro l hl d hd
      rw [List.mem_cons] at hl
      rcases hl with hl | hl
      · cases hl
      rw [List.mem_singleton] at hl
      injection hl with hl
      subst hl
      rw [List.mem_cons, List.mem_singleton] at hd
      rcases hd with rfl | rfl <;> decide)

/-- Claim C5: on a parsed reply that is an array of objects, `write_csv`
appends one complete newline-terminated row per object that has all three
required keys, in their original order — `N − K` rows when `K` of the `N`
objects lack a key — and an object lacks a key exactly when no row text is
produced for it at all. -/
theorem c5_partial_records (l : List JsonFields) (file : List Char) :
    (write_csv (some l) file).1 =
      file ++ (if file.isEmpty then headerChunk else []) ++
        ((l.filter wellFormed).map (fun d => (rowString d).getD [] ++ ['\n'])).flatten ∧
    (l.filter wellFormed).length =
      l.length - (l.filter (fun d => !wellFormed d)).length ∧
    ∀ d : JsonFields, wellFormed d = false ↔ rowString d = none := by
  refine ⟨write_csv_some l file, ?_, ?_⟩
  · have := List.length_eq_length_filter_add (l := l) wellFormed
    omega
  · intro d
    constructor
    · intro h
      rcases hr : rowString d with _ | r
      · rfl
      · have hw := (wellFormed_iff_rowString d).mpr (by rw [hr]; rfl)
        rw [hw] at h
        cases h
    · intro h
      rcases hw : wellFormed d with _ | _
      · rfl
      · exact absurd ((wellFormed_iff_rowString d).mp hw) (by rw [h]; simp)

/-- Claim C6: a reply whose payload is not valid JSON adds nothing to the
dataset file (the file is not even opened, so previous content is untouched),
the failure is logged (`print("JSONDecodeError")`), and the generation loop
continues with the remaining iterations exactly as if the failed one were
absent. -/
theorem c6_malformed_isolation :
    (∀ file : List Char, (write_csv none file).1 = file ∧
      (write_csv none file).2 = ["JSONDecodeError"]) ∧
    ∀ (rs1 rs2 : List (Option (List JsonFields))) (file : List Char),
      generate_dataset (rs1 ++ none :: rs2) file =
        generate_dataset (rs1 ++ rs2) file := by
  refine ⟨fun file => ⟨rfl, rfl⟩, ?_⟩
  intro rs1 rs2 file
  rw [generate_dataset, generate_dataset, List.foldl_append, List.foldl_append,
    List.foldl_cons, write_csv_none]

/-- Claim C7 (code bug): the manual-questions merge after first generation
never runs.  The loop filters `os.listdir()` entries — bare names, which
never contain `'/'` — against regular expressions whose literal heads contain
`'/'` (`src/datasets/generated/llama-…`, `src/datasets/manual/…`), so no pair
ever satisfies the condition and `add_manual_questions` is invoked zero
times: whatever merging it would do, every state is left unchanged. -/
theorem c7_manual_merge_never_runs {α : Type} (listing : List String)
    (merge : String × String → α → α) (st : α)
    (h : ∀ n ∈ listing, '/' ∉ n.toList) :
    manualMergePairs listing = [] ∧ runManualMerge listing merge st = st := by
  have hnil := manualMergePairs_nil h
  exact ⟨hnil, by rw [runManualMerge, hnil]; rfl⟩

/-- Witness for `c7_manual_merge_never_runs` on a realistic working-directory
listing, counting invocations of the merge action. -/
theorem c7_witness :
    manualMergePairs ["main.py", "src", "dataforge-config.json"] = [] ∧
      runManualMerge ["main.py", "src", "dataforge-config.json"]
        (fun _ n => n + 1) 0 = 0 :=
  c7_manual_merge_never_runs ["main.py", "src", "dataforge-config.json"]
    (fun _ n => n + 1) 0 (by decide)

/-- Claim C8 (code bug): the deduplication stage never reaches the resolver.
The `--no-duplicates` branch filters `os.listdir()` entries — bare names
without `'/'` — against `r'src/datasets/bigbrain-dataset.csv'`, whose literal
head contains `'/'`; no name ever matches, `verify_duplicates` runs zero
times, and the corpus file is left exactly as it was. -/
theorem c8_dedup_never_runs {α : Type} (listing : List String)
    (dedup : String → α → α) (st : α)
    (h : ∀ n ∈ listing, '/' ∉ n.toList) :
    dedupTargets listing = [] ∧ runDedup listing dedup st = st := by
  have hnil := dedupTargets_nil h
  exact ⟨hnil, by rw [runDedup, hnil]; rfl⟩

/-- Witness for `c8_dedup_never_runs` on a realistic working-directory
listing, counting invocations of the resolver. -/
theorem c8_witness :
    dedupTargets ["main.py", "requirements.txt", "src"] = [] ∧
      runDedup ["main.py", "requirements.txt", "src"] (fun _ n => n + 1) 0 = 0 :=
  c8_dedup_never_runs ["main.py", "requirements.txt", "src"]
    (fun _ n => n + 1) 0 (by decide)

/-- Claim C9 (code bug): argument validation does not stop the pipeline.
With an unrecognized flag next to `--combine`, the usage guidance is printed
but the dispatch then falls through and the combine stage still executes;
and with `--subject` present as the last argument (its value missing),
`args[args.index("--subject") + 1]` raises an uncaught `IndexError`. -/
theorem c9_cli_validation (subjects : List String)
    (h : subjects.contains "--bogus" = false) :
    (mainDispatch ["--combine", "--bogus"] subjects).usagePrinted = true ∧
    (mainDispatch ["--combine", "--bogus"] subjects).ranStages =
      [Stage.combineStage] ∧
    (mainDispatch ["--first-generation", "--subject"] subjects).crash = true := by
  have h' : "--bogus" ∉ subjects := by
    intro hmem
    have hc : subjects.contains "--bogus" = true := List.elem_eq_true_of_mem hmem
    rw [hc] at h
    cases h
  refine ⟨?_, ?_, ?_⟩ <;>
    simp +decide [mainDispatch, stagesOf, listArgs, h']

/-- Witness for `c9_cli_validation` with an empty configured subject set. -/
theorem c9_witness :
    (mainDispatch ["--combine", "--bogus"] []).usagePrinted = true ∧
    (mainDispatch ["--combine", "--bogus"] []).ranStages = [Stage.combineStage] ∧
    (mainDispatch ["--first-generation", "--subject"] []).crash = true :=
  c9_cli_validation [] (by decide)

/-- Claim C10: combine-stage discovery walks the whole tree but reads every
match from the fixed generated path.  (i) The result depends only on the
sequence of matched *filenames*, not the directories they were found in;
(ii) a matching filename whose generated path does not exist makes the run
fail with `FileNotFoundError` on `src/datasets/generated/<name>`; (iii) a
filename matched in `k` directories contributes its generated-directory rows
`k` times. -/
theorem c10_discovery_fixed_path (prior : Corpus)
    (walk walk' : List (String × List String)) (dirs : List String)
    (name : String) (fs : String → Option (List Row)) (rows : List Row) :
    ((matchedOf walk).map Prod.snd = (matchedOf walk').map Prod.snd →
      combine_datasets prior walk fs = combine_datasets prior walk' fs) ∧
    (reSearch llamaPat name = true → fs (genPath name) = none → dirs ≠ [] →
      combine_datasets prior (dirs.map (fun d => (d, [name]))) fs =
        .error (genPath name)) ∧
    (reSearch llamaPat name = true → fs (genPath name) = some rows →
      combine_datasets prior (dirs.map (fun d => (d, [name]))) fs =
        .ok ⟨1, (List.replicate dirs.length rows).flatten⟩) := by
  refine ⟨?_, ?_, ?_⟩
  · intro h
    rw [combine_datasets, combine_datasets, appendAll_names fs _ _ h]
  · intro hm hfs hd
    rw [combine_datasets, matchedOf_single hm]
    rcases dirs with _ | ⟨d, dirs⟩
    · exact absurd rfl hd
    · rw [List.map_cons, appendAll, hfs]
      rfl
  · intro hm hfs
    rw [combine_datasets, matchedOf_single hm, appendAll_const hfs]
    rfl

/-- Witness for `c10_discovery_fixed_path`: the same filename under two
directories is read twice from the generated path (doubling its rows), the
result ignores the directory of the match, and a missing generated path
aborts the run. -/
theorem c10_witness :
    (combine_datasets ⟨0, []⟩ [("x", ["llama-a-dataset.csv"])] (fun _ => none) =
      combine_datasets ⟨0, []⟩ [("y", ["llama-a-dataset.csv"])] (fun _ => none)) ∧
    (combine_datasets ⟨0, []⟩
        ([".", "./backup"].map (fun d => (d, ["llama-a-dataset.csv"])))
        (fun _ => none) = .error (genPath "llama-a-dataset.csv")) ∧
    (combine_datasets ⟨0, []⟩
        ([".", "./backup"].map (fun d => (d, ["llama-a-dataset.csv"])))
        (fun p => if p = genPath "llama-a-dataset.csv" then
          some [⟨"i", "q", "a", ""⟩] else none) =
      .ok ⟨1, (List.replicate 2 [(⟨"i", "q", "a", ""⟩ : Row)]).flatten⟩) :=
  ⟨(c10_discovery_fixed_path ⟨0, []⟩ [("x", ["llama-a-dataset.csv"])]
      [("y", ["llama-a-dataset.csv"])] [] "" (fun _ => none) []).1 (by decide),
   (c10_discovery_fixed_path ⟨0, []⟩ [] [] [".", "./backup"]
      "llama-a-dataset.csv" (fun _ => none) []).2.1 (by decide) rfl (by decide),
   (c10_discovery_fixed_path ⟨0, []⟩ [] [] [".", "./backup"]
      "llama-a-dataset.csv"
      (fun p => if p = genPath "llama-a-dataset.csv" then
        some [⟨"i", "q", "a", ""⟩] else none) [⟨"i", "q", "a", ""⟩]).2.2
      (by decide) (by decide)⟩

end DataForge
